import Mathlib

/-!
Verification of the GoodForm client-side validation engine (good_form.js).

The engine is shallowly embedded: JavaScript objects used as string-keyed
maps become insertion-ordered association lists, JavaScript's dynamically
typed values flowing through the engine become the `JSVal` inductive, and
the DOM value lookup (`GoodForm.Helpers.getValuesByName`, an out-of-scope
collaborator) becomes an environment `String → Option JSVal` where `none`
stands for the JavaScript `undefined` returned when no element exists.
Each definition is annotated with the source function it translates.
-/

namespace GoodForm

/-- A JavaScript value as it flows through the validation engine: form values
are strings or arrays of strings, server results are additionally `null`,
and `undef` stands for `undefined` (an absent object property). -/
inductive JSVal where
  | null
  | undefined
  | str (s : String)
  | arr (vs : List String)
deriving DecidableEq, Repr

/-- JavaScript `ToString` as applied by `RegExp.test` and string contexts:
`null` prints "null", `undefined` prints "undefined", an array joins its
elements with commas (`Array.prototype.toString`). -/
def jsToString : JSVal → String
  | .null => "null"
  | .undefined => "undefined"
  | .str s => s
  | .arr vs => String.intercalate "," vs

/-- JavaScript truthiness for the values above: `null` and `undefined` are
falsy, a string is truthy iff non-empty, an array (an object) is always
truthy. -/
def jsTruthy : JSVal → Bool
  | .null => false
  | .undefined => false
  | .str s => s ≠ ""
  | .arr _ => true

/-- Characters matched by the `\s` class of the regular expressions
`/^\s*$/` used by the engine (ASCII whitespace). -/
def isJsWhitespace (c : Char) : Bool :=
  c = ' ' || c = '\t' || c = '\n' || c = '\r' || c = '\x0b' || c = '\x0c'

/-- The test `/^\s*$/.test(s)`: every character is whitespace (true for the
empty string). -/
def blankStr (s : String) : Bool :=
  s.toList.all isJsWhitespace

/-- The guard test `/^\s*$/.test(value)` from Validate.Queue; `test`
coerces its argument to a string first. -/
def blankTest (v : JSVal) : Bool :=
  blankStr (jsToString v)

/-- The loose comparison `value == ""` from Validate.Queue. In JavaScript
`null == ""` and `undefined == ""` are both false; an array is compared via
`ToPrimitive` (its comma-joined string form). -/
def eqEmptyString : JSVal → Bool
  | .null => false
  | .undefined => false
  | .str s => s = ""
  | .arr vs => String.intercalate "," vs = ""

/-- The loose comparison `value == undefined` used by Validate.Name; it is
true for both `undefined` and `null`. -/
def looseEqUndefined : JSVal → Bool
  | .null => true
  | .undefined => true
  | .str _ => false
  | .arr _ => false

/-- Property read `m[k]` on a JavaScript object modelled as an
insertion-ordered association list; `none` is `undefined`. -/
def objGet {α : Type} (m : List (String × α)) (k : String) : Option α :=
  (m.find? (fun p => p.1 = k)).map (fun p => p.2)

/-- Property write `m[k] = v`: overwrites in place when the key exists
(keeping its insertion position, as JavaScript objects do), appends
otherwise. -/
def objSet {α : Type} : List (String × α) → String → α → List (String × α)
  | [], k, v => [(k, v)]
  | (k', v') :: rest, k, v =>
      if k' = k then (k', v) :: rest else (k', v') :: objSet rest k v

/-- Truthiness of a property read (`undefined` when absent). -/
def jsTruthyOpt (r : Option JSVal) : Bool :=
  match r with
  | some v => jsTruthy v
  | none => false

/-- A GoodForm.Validation object (good_form.js lines 135-153): the options
object is copied onto the rule, so the recognized engine-level options
become fields. `validate` is the per-kind predicate closure assigned by the
Validates constructors; `ifCond`/`unlessCond` are the `"if"`/`unless`
guards; `includeParams` is the Ajax `include` list (already normalized by
`[].concat`, whose `[undefined]` result for a missing option behaves like
the empty list in the falsy-terminated loop of pushParameters). -/
structure Validation where
  message : Option String := none
  allowBlank : Bool := false
  allowNull : Bool := false
  ifCond : Option (String → Bool) := none
  unlessCond : Option (String → Bool) := none
  validate : JSVal → Option String := fun _ => none
  includeParams : List String := []

/-- The guard switch of Validate.Queue (lines 553-558): the four cases of
`switch (true)` in source order; a match breaks out, skipping the rule.
With pure guard predicates the ordered first-match evaluation is
observationally the short-circuited disjunction in the same order. -/
def guardSkips (v : Validation) (name : String) (value : JSVal) : Bool :=
  (v.allowBlank && blankTest value) ||
  (v.allowNull && eqEmptyString value) ||
  (match v.ifCond with | some f => !(f name) | none => false) ||
  (match v.unlessCond with | some f => f name | none => false)

/-- The expression `GoodForm.Validate.response[name] || []` of the local
branch: a falsy current entry (absent, `""`, `null`) is replaced by an
empty array. -/
def jsOrEmptyList (r : Option JSVal) : JSVal :=
  match r with
  | some v => if jsTruthy v then v else .arr []
  | none => .arr []

/-- The call `errors.concat(error)`: `Array.prototype.concat` appends the
message as one element; on a (truthy) string `String.prototype.concat`
concatenates text. Other receivers cannot reach this call because
`jsOrEmptyList` only produces arrays or truthy strings. -/
def respConcat : JSVal → String → JSVal
  | .arr ms, e => .arr (ms ++ [e])
  | .str s, e => .str (s ++ e)
  | r, _ => r

/-- One iteration of the Validate.Queue loop for a local rule (lines
551-567, `type == "local"` branch): skip when a guard matches, otherwise
run the predicate and, when it returns a truthy message, append the message
to the field's accumulated error list in the response map. -/
def queueLocalStep (name : String) (value : JSVal) (resp : List (String × JSVal))
    (v : Validation) : List (String × JSVal) :=
  if guardSkips v name value then resp
  else
    match v.validate value with
    | some e =>
        if e = "" then resp
        else objSet resp name (respConcat (jsOrEmptyList (objGet resp name)) e)
    | none => resp

/-- The message contributed by one rule in one local dispatch (`none` when
the rule is skipped by a guard or its predicate returns a falsy result);
used to state accumulation results about `queueLocalStep`. -/
def localMsg (name : String) (value : JSVal) (v : Validation) : Option String :=
  if guardSkips v name value then none
  else
    match v.validate value with
    | some e => if e = "" then none else some e
    | none => none

/-- The messages contributed by a rule list in registration order. -/
def localMsgs (name : String) (value : JSVal) (rs : List Validation) : List String :=
  rs.filterMap (localMsg name value)

/-- The whole local loop of Validate.Queue over a field's registered rules
in registration order. -/
def queueLocalRules (name : String) (value : JSVal) (rs : List Validation)
    (resp : List (String × JSVal)) : List (String × JSVal) :=
  rs.foldl (fun r v => queueLocalStep name value r v) resp

/-- The split `incl.split("=")` used by pushParameters: `pair[0]` is the
text before the first `=`, `pair[1]` is `undefined` when there is no `=`. -/
def splitPair (s : String) : String × JSVal :=
  match s.splitOn "=" with
  | [x] => (x, .undefined)
  | x :: y :: _ => (x, .str y)
  | [] => ("", .undefined)

/-- The pushParameters closure of Validates.Ajax (lines 479-486): walk the
`include` list until a falsy element; for each entry, queue its current
form value when one exists and is truthy, otherwise split it as a
`name=value` pair (split always yields a truthy array, so that branch
always runs). -/
def pushParams (env : String → Option JSVal) : List String → List (String × JSVal) →
    List (String × JSVal)
  | [], q => q
  | incl :: rest, q =>
      if incl = "" then q
      else
        let q' :=
          match env incl with
          | some v =>
              if jsTruthy v then objSet q incl v
              else objSet q (splitPair incl).1 (splitPair incl).2
          | none => objSet q (splitPair incl).1 (splitPair incl).2
        pushParams env rest q'

/-- One iteration of the Validate.Queue loop for a remote rule (lines
551-567, `type == "remote"` branch): skip when a guard matches, otherwise
enqueue the field's value and run the rule's pushParameters step. -/
def queueRemoteStep (env : String → Option JSVal) (name : String) (value : JSVal)
    (q : List (String × JSVal)) (v : Validation) : List (String × JSVal) :=
  if guardSkips v name value then q
  else pushParams env v.includeParams (objSet q name value)

/-- The whole remote loop of Validate.Queue over a field's registered
rules. -/
def queueRemoteRules (env : String → Option JSVal) (name : String) (value : JSVal)
    (rs : List Validation) (q : List (String × JSVal)) : List (String × JSVal) :=
  rs.foldl (fun acc v => queueRemoteStep env name value acc v) q

/-- The mutable GoodForm globals touched by the engine: the two rule
registries (`GoodForm.local`, `GoodForm.remote`), the pending batch
(`GoodForm.Validate.queue`), the response map (`GoodForm.Validate.response`),
and the valid-message configuration. -/
structure GFState where
  localReg : List (String × List Validation) := []
  remoteReg : List (String × List Validation) := []
  queue : List (String × JSVal) := []
  response : List (String × JSVal) := []
  validMessages : List (String × String) := []
  validMessage : String := ""

/-- The `type` argument of Validate.Queue. -/
inductive RuleKind where
  | rlocal
  | rremote
deriving DecidableEq, Repr

/-- The registry selected by `GoodForm[type]`. -/
def GFState.reg (st : GFState) : RuleKind → List (String × List Validation)
  | .rlocal => st.localReg
  | .rremote => st.remoteReg

/-- The value `GoodForm.validMessages[name] || GoodForm.validMessage`
assigned to an error-free field. -/
def validDefault (st : GFState) (name : String) : JSVal :=
  match objGet st.validMessages name with
  | some s => if s ≠ "" then .str s else .str st.validMessage
  | none => .str st.validMessage

/-- The JavaScript return value of Validate.Queue: `null` when no rules are
registered, otherwise the current `queue[name]` (remote) or
`response[name]` (local) property, either of which may be `undefined`. -/
inductive QueueRet where
  | jsnull
  | qval (v : Option JSVal)
  | rval (v : Option JSVal)
deriving DecidableEq, Repr

/-- Truthiness of the Validate.Queue return as tested by `if (!remote)` in
Validate.Name. -/
def qretTruthy : QueueRet → Bool
  | .jsnull => false
  | .qval r => jsTruthyOpt r
  | .rval r => jsTruthyOpt r

/-- GoodForm.Validate.Queue (lines 549-575). Returns `null` when the field
has no rules of the requested kind; otherwise processes each rule in
registration order, then returns `queue[name]` for remote, or assigns the
valid default to a still-falsy `response[name]` and returns `response[name]`
for local. -/
def QueueFn (env : String → Option JSVal) (st : GFState) (type : RuleKind)
    (name : String) (value : JSVal) : GFState × QueueRet :=
  match objGet (st.reg type) name with
  | none => (st, .jsnull)
  | some vs =>
      match type with
      | .rremote =>
          let q' := queueRemoteRules env name value vs st.queue
          ({ st with queue := q' }, .qval (objGet q' name))
      | .rlocal =>
          let resp' := queueLocalRules name value vs st.response
          let resp'' :=
            if jsTruthyOpt (objGet resp' name) then resp'
            else objSet resp' name (validDefault st name)
          ({ st with response := resp'' }, .rval (objGet resp'' name))

/-- GoodForm.Validate.Local (lines 597-602): the silent local-only check.
The loop head indexes `GoodForm.local[name][i]` with no guard, so when no
local validations are registered under `name` the property read on
`undefined` throws a TypeError; that non-return is modelled as the
`Except.error` case. Otherwise the loop returns `false` at the first rule
whose predicate yields a truthy message and `true` past the end. -/
def ValidateLocal (env : String → Option JSVal) (st : GFState) (name : String) :
    Except Unit Bool :=
  match objGet st.localReg name with
  | none => .error ()
  | some vs =>
      .ok (vs.all (fun v =>
        !(match v.validate (match env name with | some x => x | none => .undefined) with
          | some e => e ≠ ""
          | none => false)))

/-- The serialized query parameters one queued entry contributes in
GoodForm.Validate.Remote (lines 608-613): `[].concat(value)` wraps a single
value, and the inner `for (...; value = values[i]; ...)` loop stops at the
first falsy element, so an empty-string value (or `null`/`undefined`)
contributes nothing from that point on. `encodeURIComponent` is a host
collaborator and is modelled as the identity on the value text. -/
def paramsFor (n : String) (v : JSVal) : List String :=
  let values : List String :=
    match v with
    | .str s => [s]
    | .arr vs => vs
    | .null => []
    | .undefined => []
  (values.takeWhile (fun s => s ≠ "")).map (fun s => n ++ "=" ++ s)

/-- The full parameter list serialized from the pending batch, in queue
insertion order. -/
def buildParams (q : List (String × JSVal)) : List String :=
  (q.map (fun p => paramsFor p.1 p.2)).flatten

/-- The boolean returned by GoodForm.Validate.Remote (lines 607-637): when
the serialized parameter list is empty the function returns `false` before
touching the transport; otherwise it issues the asynchronous GET and
returns `true`. The request itself and its readystatechange events are
modelled separately by `onReadyStateChange`. -/
def ValidateRemoteIssued (q : List (String × JSVal)) : Bool :=
  buildParams q ≠ []

/-- One Presenter-hook invocation: GoodForm.Validate.Effect (lines 662-678)
classifies its `response` argument with parseResponse and paints the
field's validation span with the resulting class name; the DOM side is the
out-of-scope renderer, so an Effect is recorded as the field name, the
computed status and the payload it carried. -/
structure Report where
  name : String
  status : String
  payload : JSVal
deriving DecidableEq, Repr

/-- GoodForm.Helpers.parseResponse (lines 763-770): an `undefined` response
is still loading — and, because the check is the loose `response ==
undefined`, so is a `null` response; a non-empty array is an error;
anything else is valid. -/
def parseResponse : JSVal → String
  | .undefined => "loading"
  | .null => "loading"
  | .arr ms => if ms.length > 0 then "error" else "valid"
  | .str _ => "valid"

/-- Construction `new GoodForm.Validate.Effect(name, response)`, with the
validation span assumed found (DOM collaborator). -/
def mkEffect (name : String) (response : JSVal) : Report :=
  { name := name, status := parseResponse response, payload := response }

/-- The report loop of GoodForm.Validate.Run (lines 686-690): iterate the
response map in insertion order, reassigning the `response` local to each
entry and emitting an Effect unless silent. The first component is the
final value of the `response` local (`none` when the map was empty, the
loop never assigning it). -/
def runLoop (silent : Bool) : List (String × JSVal) → Option JSVal × List Report
  | [] => (none, [])
  | (n, r) :: rest =>
      let tail := runLoop silent rest
      ((match tail.1 with | none => some r | some x => some x),
       (if silent then [] else [mkEffect n r]) ++ tail.2)

/-- Reading a possibly-unassigned JavaScript local: `none` is
`undefined`. -/
def jsOfVar : Option JSVal → JSVal
  | some v => v
  | none => .undefined

/-- The last entry of the response map in insertion order (`undefined`
when the map is empty); this is the value the `response` local of
Validate.Run holds after its report loop. -/
def lastRespVar : List (String × JSVal) → JSVal
  | [] => .undefined
  | [(_, r)] => r
  | _ :: rest => lastRespVar rest

/-- The result of a non-deferred validation run. -/
structure RunOut where
  state : GFState
  ok : Bool
  reports : List Report

/-- GoodForm.Validate.Run (lines 683-694): `GoodForm.Validate.queue` is an
object and hence always truthy, so Remote() is always consulted; when it
did not issue a round trip the response map is reported entry by entry.
The queue is then cleared and the returned boolean is whether the final
value of the `response` local — the last entry visited, or `undefined` when
the loop was skipped — parses as "valid". -/
def ValidateRun (st : GFState) (silent : Bool) : RunOut :=
  let issued := ValidateRemoteIssued st.queue
  let looped := if !issued then runLoop silent st.response else (none, [])
  { state := { st with queue := [] },
    ok := parseResponse (jsOfVar looped.1) == "valid",
    reports := looped.2 }

/-- The options object of Validate.Name; `localOpt` is the source's
`options.local` (renamed because `local` is reserved in Lean). The `scope`
option only narrows the DOM lookup and is folded into the environment. -/
structure NameOpts where
  defer : Bool := false
  localOpt : Bool := false
  silent : Bool := false

/-- The JavaScript return value of Validate.Name: `undefined` from the
early returns, the Run boolean, or the deferred `response[name]` entry. -/
inductive NameRet where
  | undefRet
  | ranBool (b : Bool)
  | deferResp (r : Option JSVal)
deriving DecidableEq, Repr

/-- GoodForm.Validate.Name (lines 526-543): reset the response map unless
deferred; resolve the field's value (`none`, standing for `undefined`, or a
`null`-ish value returns immediately — `value == undefined` is loose);
dispatch remotely unless `options.local`, falling back to the local
dispatch only when the remote return was falsy; then either flush via Run
or return the deferred response entry (`name` being falsy only as the empty
string). -/
def ValidateName (env : String → Option JSVal) (st : GFState) (name : String)
    (opts : NameOpts) : GFState × NameRet × List Report :=
  let st0 := if !opts.defer then { st with response := [] } else st
  match env name with
  | none => (st0, .undefRet, [])
  | some value =>
      if looseEqUndefined value then (st0, .undefRet, [])
      else
        let remote :=
          if !opts.localOpt then QueueFn env st0 .rremote name value
          else (st0, QueueRet.jsnull)
        let st2 :=
          if !(qretTruthy remote.2) then
            (QueueFn env remote.1 .rlocal name value).1
          else remote.1
        if !opts.defer then
          let out := ValidateRun st2 opts.silent
          (out.state, .ranBool out.ok, out.reports)
        else if name ≠ "" then (st2, .deferResp (objGet st2.response name), [])
        else (st2, .undefRet, [])

/-- GoodForm.Validate.All (lines 581-592): clear the response map, run
every field with remote rules deferred, then every field with local rules
whose response entry is still falsy deferred, then flush once (Run with no
options, hence not silent). Registry iteration order is insertion order. -/
def ValidateAll (env : String → Option JSVal) (st : GFState) : RunOut :=
  let st0 := { st with response := ([] : List (String × JSVal)) }
  let st1 := st0.remoteReg.foldl
    (fun s p => (ValidateName env s p.1 { defer := true }).1) st0
  let st2 := st1.localReg.foldl
    (fun s p =>
      if jsTruthyOpt (objGet s.response p.1) then s
      else (ValidateName env s p.1 { defer := true }).1) st1
  ValidateRun st2 false

/-- One readystatechange notification delivered by the host XHR object:
its ready state, HTTP status and, when complete, the evaluated JSON body
(a map of field name to result). -/
structure XhrEvent where
  readyState : Nat
  status : Nat
  body : List (String × JSVal) := []

/-- The onreadystatechange handler installed by GoodForm.Validate.Remote
(lines 622-630), as a function of the current pending queue and the event.
On a complete 2xx event it creates one Effect per entry of the parsed body;
on any other event it creates a loading Effect (response `undefined`) for
every field currently in the queue — the `loadingState` local is declared
but never assigned, so `!loadingState` always holds. The handler touches no
engine state: its only actions are Effect constructions. -/
def onReadyStateChange (q : List (String × JSVal)) (ev : XhrEvent) : List Report :=
  if ev.readyState = 4 && 200 ≤ ev.status && ev.status < 300 then
    ev.body.map (fun p => mkEffect p.1 p.2)
  else
    q.map (fun p => mkEffect p.1 .undefined)

/-- Delivery of one XHR event against the live globals: the handler reads
`GoodForm.Validate.queue` at event time and writes nothing back, so the
state passes through unchanged (the source handler's only statements are
`eval` into a local and Effect constructions). -/
def remoteDeliver (st : GFState) (ev : XhrEvent) : GFState × List Report :=
  (st, onReadyStateChange st.queue ev)

/-- The subset of GoodForm.defaultErrorMessages (lines 77-97) used by the
rule constructors embedded below. -/
def defaultErrorMessages (key : String) : String :=
  if key = "blank" then "can't be blank"
  else if key = "invalid" then "is invalid"
  else if key = "tooShort" then "is too short (minimum is %d characters)"
  else if key = "tooLong" then "is too long (maximum is %d characters)"
  else if key = "wrongLength" then "is the wrong length (should be %d characters)"
  else ""

/-- The `value || ""` coercion of Validates.Presence. -/
def jsOrEmptyStr (v : JSVal) : JSVal :=
  if jsTruthy v then v else .str ""

/-- The predicate closure of Validates.Presence (lines 443-449) with its
already-defaulted message: `/^\s*$/.test(value || "")`. -/
def presenceValidation (message : Option String) : Validation :=
  { message := message,
    validate := fun value =>
      if blankTest (jsOrEmptyStr value) then message else none }

/-- The default Presence rule as registered by
`new GoodForm.Validation(arguments, "blank")`. -/
def presenceRule : Validation :=
  presenceValidation (some (defaultErrorMessages "blank"))

/-- The configuration object accepted by Validates.Format: a regular
expression is modelled as its `test` function on the stringified value.
`withTest` is the `"with"` (or `withOption`) key. -/
structure FormatConfig where
  withTest : Option (String → Bool) := none
  message : Option String := none
  allowBlank : Bool := false
  allowNull : Bool := false

/-- The state of a Format validation object after construction: the copied
options plus the defaulted message. -/
structure FormatRule where
  withTest : Option (String → Bool)
  message : Option String
  allowBlank : Bool
  allowNull : Bool

/-- GoodForm.Validates.Format construction (lines 284-290):
`new GoodForm.Validation(arguments, "invalid")` copies every supplied
option onto the rule and defaults the message; nothing checks that a
pattern was supplied, so construction always completes normally. -/
def ValidatesFormat (cfg : FormatConfig) : FormatRule :=
  { withTest := cfg.withTest,
    message :=
      match cfg.message with
      | some m => some m
      | none => some (defaultErrorMessages "invalid"),
    allowBlank := cfg.allowBlank,
    allowNull := cfg.allowNull }

/-- A thrown JavaScript exception relevant to the embedded code paths. -/
inductive JsError where
  | typeError
deriving DecidableEq, Repr

/-- The predicate closure assigned by Validates.Format:
`if (!v["with"].test(value)) return v.message`. When the rule was built
without a pattern, `v["with"]` is `undefined` and the method call throws a
TypeError — the `Except.error` case. -/
def formatValidate (v : FormatRule) (value : JSVal) : Except JsError (Option String) :=
  match v.withTest with
  | none => .error .typeError
  | some t => .ok (if !(t (jsToString value)) then v.message else none)

/-- A Format rule with its pattern supplied, packaged as an engine
Validation for dispatch; its predicate is the same closure, which then has
no failing path. -/
def formatAsValidation (t : String → Bool) (message : String) : Validation :=
  { message := some message,
    validate := fun value =>
      if !(t (jsToString value)) then some message else none }

/-- Character-level global replacement of the two-character sequence
`%d`, scanning left to right without overlap. -/
def replaceDChars (sub : List Char) : List Char → List Char
  | '%' :: 'd' :: rest => sub ++ replaceDChars sub rest
  | c :: rest => c :: replaceDChars sub rest
  | [] => []

/-- Replacement `template.replace(/%d/g, n)` used by the Length messages;
an `undefined` bound prints as "undefined". -/
def replaceAllD (template : String) (n : Option Nat) : String :=
  String.mk (replaceDChars
    (match n with | some m => toString m | none => "undefined").toList
    template.toList)

/-- Loose equality `v.minimum == v.maximum` where either may be
`undefined`: `undefined == undefined` holds, a number never equals
`undefined`. -/
def jsOptNatEq : Option Nat → Option Nat → Bool
  | none, none => true
  | some a, some b => a = b
  | _, _ => false

/-- Comparison `len != v.minimum` (`len` a number, `v.minimum` possibly
`undefined`; a number is never loosely equal to `undefined`). -/
def jsNeNum (len : Nat) : Option Nat → Bool
  | none => true
  | some m => len ≠ m

/-- Comparison `len < v.minimum`: any relational comparison against
`undefined` is a NaN comparison and yields false. -/
def jsLtNum (len : Nat) : Option Nat → Bool
  | none => false
  | some m => len < m

/-- The first truthy message among the candidates, as in
`v.tooShort || v.message || GoodForm.defaultErrorMessages.tooShort`. -/
def firstMsg (a b : Option String) (dflt : String) : String :=
  match a with
  | some s => if s ≠ "" then s else firstMsgTail b dflt
  | none => firstMsgTail b dflt
where
  firstMsgTail (b : Option String) (dflt : String) : String :=
    match b with
    | some s => if s ≠ "" then s else dflt
    | none => dflt

/-- The configuration object accepted by Validates.Length. `inOpt` and
`isOpt` model the `"in"` and `is` keys. -/
structure LengthConfig where
  minimum : Option Nat := none
  maximum : Option Nat := none
  isOpt : Option Nat := none
  within : Option (List Nat) := none
  inOpt : Option (List Nat) := none
  tooShort : Option String := none
  tooLong : Option String := none
  wrongLength : Option String := none
  message : Option String := none
  allowBlank : Bool := false
  allowNull : Bool := false

/-- The predicate closure of Validates.Length (lines 362-373):
`value ? value.length : 0`, then the wrong-length, too-short and too-long
checks in order; `v.maximum &&` makes a zero or missing maximum skip the
third check. -/
def lengthValidate (minimum maximum : Option Nat)
    (wrongLength tooShort tooLong message : Option String) (value : JSVal) :
    Option String :=
  let len : Nat :=
    match value with
    | .str s => s.length
    | .arr vs => vs.length
    | .null => 0
    | .undefined => 0
  if jsOptNatEq minimum maximum && jsNeNum len minimum then
    some (replaceAllD
      (firstMsg wrongLength message (defaultErrorMessages "wrongLength")) minimum)
  else if jsLtNum len minimum then
    some (replaceAllD
      (firstMsg tooShort message (defaultErrorMessages "tooShort")) minimum)
  else if (match maximum with | some m => m ≠ 0 && len > m | none => false) then
    some (replaceAllD
      (firstMsg tooLong message (defaultErrorMessages "tooLong")) maximum)
  else none

/-- GoodForm.Validates.Length construction (lines 355-374):
`new GoodForm.Validation(arguments)` (no default message) copies the
options; then `within`/`in` fix minimum and maximum as the range's first
and last elements, a truthy `is` sets both, and the options are otherwise
kept. The predicate is `lengthValidate` over the resolved bounds. -/
def mkLengthValidation (cfg : LengthConfig) : Validation :=
  let rng : Option (List Nat) :=
    match cfg.within with
    | some r => some r
    | none => cfg.inOpt
  let bounds : Option Nat × Option Nat :=
    match rng with
    | some r => (r.head?, r.getLast?)
    | none =>
        match cfg.isOpt with
        | some n => if n ≠ 0 then (some n, some n) else (cfg.minimum, cfg.maximum)
        | none => (cfg.minimum, cfg.maximum)
  { message := cfg.message,
    allowBlank := cfg.allowBlank,
    allowNull := cfg.allowNull,
    validate := fun value =>
      lengthValidate bounds.1 bounds.2 cfg.wrongLength cfg.tooShort cfg.tooLong
        cfg.message value }

/-! Concrete pages (registries, field environments) used to evaluate the
engine at specific inputs. An environment maps a field name to the value
`GoodForm.Helpers.getValuesByName` would resolve for it, with `none` for a
field absent from the document. -/

/-- A rule in the style of the Validation doc comment (lines 127-133): its
predicate always returns an error message. -/
def alwaysInvalidRule : Validation :=
  { validate := fun _ => some "is always invalid" }

/-- A rule whose predicate always passes. -/
def alwaysValidRule : Validation :=
  { validate := fun _ => none }

/-- A page with two local-only fields, `a` and `b`, both present with a
non-blank value. -/
def abEnv : String → Option JSVal := fun n =>
  if n = "a" || n = "b" then some (.str "x") else none

/-- Registries for that page: `a` always fails its local rule, `b` always
passes, registered in that order. -/
def abState : GFState :=
  { localReg := [("a", [alwaysInvalidRule]), ("b", [alwaysValidRule])] }

/-- A bare Ajax rule (no `include` option, no guards). -/
def ajaxRule : Validation := {}

/-- A page where field `f` carries the empty string. -/
def emptyFEnv : String → Option JSVal := fun n =>
  if n = "f" then some (.str "") else none

/-- Registries with both a remote rule and a local rule on field `f`. -/
def bothKindsState : GFState :=
  { remoteReg := [("f", [ajaxRule])], localReg := [("f", [alwaysInvalidRule])] }

/-- A page with one remote-validated field `email`. -/
def emailEnv : String → Option JSVal := fun n =>
  if n = "email" then some (.str "a@b.com") else none

/-- Registries with only the Ajax rule on `email`. -/
def emailState : GFState := { remoteReg := [("email", [ajaxRule])] }

/-- The globals right after `Validate("email")` returned: the batch was
serialized and flushed, the queue cleared, the round trip left pending. -/
def emailAfterFlush : GFState := (ValidateName emailEnv emailState "email" {}).1

/-- Delivery of the completed 2xx round trip whose body is
`{"email": null}` — the server's way of saying the field is valid. -/
def emailDelivery : GFState × List Report :=
  remoteDeliver emailAfterFlush { readyState := 4, status := 200, body := [("email", .null)] }

/-- A local rule with `allowNull` set whose predicate always fails,
mirroring `Validates.AdHoc("f", { "with": ..., allowNull: true })`. -/
def allowNullLocalRule : Validation :=
  { allowNull := true, validate := fun _ => some "err" }

/-- A remote rule with `allowNull` set. -/
def allowNullAjaxRule : Validation := { allowNull := true }

/-- The Length rule of `Validates.Length("password", { minimum: 6,
allowBlank: true })`. -/
def lengthSixBlankRule : Validation :=
  mkLengthValidation { minimum := some 6, allowBlank := true }

/-- A Format rule whose pattern accepts exactly "ok". -/
def formatOkRule : Validation :=
  formatAsValidation (fun s => s = "ok") (defaultErrorMessages "invalid")

/-- A remote rule set for witness pages: field `g` present with a truthy
value. -/
def truthyGEnv : String → Option JSVal := fun n =>
  if n = "g" then some (.str "v") else none

/-- Registries with both rule kinds on `g`. -/
def bothKindsGState : GFState :=
  { remoteReg := [("g", [ajaxRule])], localReg := [("g", [alwaysInvalidRule])] }

/-! Lemmas about the association-list object model and the dispatcher
loop, followed by one theorem per claim. -/

/-- Reading back the property just written. -/
theorem objGet_objSet_self {α : Type} (m : List (String × α)) (k : String) (v : α) :
    objGet (objSet m k v) k = some v := by
  induction m with
  | nil => simp [objGet, objSet]
  | cons p rest ih =>
      obtain ⟨k', v'⟩ := p
      by_cases h : k' = k
      · subst h
        simp [objGet, objSet]
      · simp only [objSet, if_neg h]
        simpa [objGet, List.find?, h] using ih

/-- One local dispatch step, restated through the message the rule
contributes: a skipped or passing rule leaves the response map alone, a
failing rule appends its message. -/
theorem queueLocalStep_eq (name : String) (value : JSVal)
    (resp : List (String × JSVal)) (v : Validation) :
    queueLocalStep name value resp v =
      (match localMsg name value v with
       | none => resp
       | some e => objSet resp name (respConcat (jsOrEmptyList (objGet resp name)) e)) := by
  by_cases hg : guardSkips v name value
  · simp [queueLocalStep, localMsg, hg]
  · cases hv : v.validate value with
    | none => simp [queueLocalStep, localMsg, hg, hv]
    | some e =>
        by_cases he : e = "" <;> simp [queueLocalStep, localMsg, hg, hv, he]

/-- Error accumulation invariant of the local loop: starting from an
existing error array, the rules' truthy messages are appended in
registration order, never overwriting earlier entries. -/
theorem queueLocalRules_accumulates (name : String) (value : JSVal) :
    ∀ (rs : List Validation) (resp : List (String × JSVal)) (ms : List String),
      objGet resp name = some (.arr ms) →
      objGet (queueLocalRules name value rs resp) name =
        some (.arr (ms ++ localMsgs name value rs)) := by
  intro rs
  induction rs with
  | nil =>
      intro resp ms h
      simpa [queueLocalRules, localMsgs] using h
  | cons v rest ih =>
      intro resp ms h
      have hstep := queueLocalStep_eq name value resp v
      cases hm : localMsg name value v with
      | none =>
          rw [hm] at hstep
          have : queueLocalRules name value (v :: rest) resp
              = queueLocalRules name value rest resp := by
            simp [queueLocalRules, hstep]
          rw [this, ih resp ms h]
          simp [localMsgs, List.filterMap_cons, hm]
      | some e =>
          rw [hm] at hstep
          rw [h] at hstep
          have harr : jsOrEmptyList (some (JSVal.arr ms)) = JSVal.arr ms := by
            simp [jsOrEmptyList, jsTruthy]
          rw [harr] at hstep
          have hrules : queueLocalRules name value (v :: rest) resp
              = queueLocalRules name value rest
                  (objSet resp name (respConcat (JSVal.arr ms) e)) := by
            simp [queueLocalRules, hstep]
          rw [hrules]
          have hget : objGet (objSet resp name (respConcat (JSVal.arr ms) e)) name
              = some (.arr (ms ++ [e])) := by
            simpa [respConcat] using
              objGet_objSet_self resp name (respConcat (JSVal.arr ms) e)
          rw [ih _ (ms ++ [e]) hget]
          simp [localMsgs, List.filterMap_cons, hm]

/-- Claim C9: when several local rules are registered for the same field,
the messages of all rules failing on the field's value in one dispatch
accumulate into a single ordered list in the ResponseMap, in rule
registration order — starting from an unset entry, the dispatch leaves the
entry unset when no rule fails and otherwise stores exactly the failing
rules' messages in order, each appended and none overwritten. -/
theorem claim9_errors_accumulate_in_order (name : String) (value : JSVal)
    (rs : List Validation) (resp : List (String × JSVal))
    (h : objGet resp name = none) :
    objGet (queueLocalRules name value rs resp) name =
      (if localMsgs name value rs = [] then none
       else some (JSVal.arr (localMsgs name value rs))) := by
  induction rs generalizing resp with
  | nil => simpa [queueLocalRules, localMsgs] using h
  | cons v rest ih =>
      have hstep := queueLocalStep_eq name value resp v
      cases hm : localMsg name value v with
      | none =>
          rw [hm] at hstep
          have hrules : queueLocalRules name value (v :: rest) resp
              = queueLocalRules name value rest resp := by
            simp [queueLocalRules, hstep]
          rw [hrules, ih resp h]
          simp [localMsgs, List.filterMap_cons, hm]
      | some e =>
          rw [hm, h] at hstep
          have hempty : jsOrEmptyList (none : Option JSVal) = JSVal.arr [] := rfl
          rw [hempty] at hstep
          have hrules : queueLocalRules name value (v :: rest) resp
              = queueLocalRules name value rest
                  (objSet resp name (respConcat (JSVal.arr []) e)) := by
            simp [queueLocalRules, hstep]
          have hget : objGet (objSet resp name (respConcat (JSVal.arr []) e)) name
              = some (.arr [e]) := by
            simpa [respConcat] using
              objGet_objSet_self resp name (respConcat (JSVal.arr []) e)
          rw [hrules, queueLocalRules_accumulates name value rest _ [e] hget]
          simp [localMsgs, List.filterMap_cons, hm]

/-- Witness for C9: on a field whose value is blank and registered with a
Presence rule followed by a Format rule, both fail and the ResponseMap
entry becomes the two default messages in registration order. -/
theorem claim9_witness :
    objGet ([] : List (String × JSVal)) "login" = none ∧
    objGet (queueLocalRules "login" (.str "") [presenceRule, formatOkRule] []) "login"
      = some (JSVal.arr ["can't be blank", "is invalid"]) := by
  refine ⟨rfl, ?_⟩
  have h := claim9_errors_accumulate_in_order "login" (.str "")
    [presenceRule, formatOkRule] [] rfl
  rw [h]
  decide

/-- Claim C7, counterexample: a rule with `allowNull` set is not skipped on
a genuinely null field value — the guard's comparison `value == ""` is
false for `null`, so the local dispatch still evaluates the predicate (the
error entry appears) and the remote dispatch still enqueues the value. -/
theorem claim7_counterexample :
    allowNullLocalRule.allowNull = true ∧
    queueLocalStep "f" JSVal.null [] allowNullLocalRule = [("f", JSVal.arr ["err"])] ∧
    allowNullAjaxRule.allowNull = true ∧
    queueRemoteStep (fun _ => none) "f" JSVal.null [] allowNullAjaxRule
      = [("f", JSVal.null)] := by
  refine ⟨rfl, by decide, rfl, by decide⟩

/-- Claim C7, amended: the `allowNull` guard tests `value == ""` under
JavaScript loose equality, so for every rule with `allowNull` set it skips
the rule — no predicate evaluation, no remote enqueue — exactly on values
loosely equal to the empty string (the empty string, or an array whose
string form is empty), not on `null`. The four guards are evaluated in the
source order blank-with-allowBlank, empty-with-allowNull, conditional
failing, negated-conditional succeeding, any match breaking out of the
rule's processing. -/
theorem claim7_amended_allow_null_skips_empty (v : Validation)
    (env : String → Option JSVal) (name : String) (value : JSVal)
    (resp q : List (String × JSVal))
    (hn : v.allowNull = true) (he : eqEmptyString value = true) :
    guardSkips v name value = true ∧
    queueLocalStep name value resp v = resp ∧
    queueRemoteStep env name value q v = q := by
  have hg : guardSkips v name value = true := by
    unfold guardSkips
    rw [hn, he]
    simp
  exact ⟨hg, by simp [queueLocalStep, hg], by simp [queueRemoteStep, hg]⟩

/-- Witness for the amended C7: the same always-failing `allowNull` rule is
skipped on the empty string. -/
theorem claim7_amended_witness :
    allowNullLocalRule.allowNull = true ∧
    eqEmptyString (JSVal.str "") = true ∧
    (guardSkips allowNullLocalRule "f" (JSVal.str "") = true ∧
     queueLocalStep "f" (JSVal.str "") [] allowNullLocalRule = [] ∧
     queueRemoteStep (fun _ => none) "f" (JSVal.str "") [] allowNullLocalRule = []) :=
  ⟨rfl, rfl,
   claim7_amended_allow_null_skips_empty allowNullLocalRule (fun _ => none) "f"
     (JSVal.str "") [] [] rfl rfl⟩

/-- Claim C8: a rule with `allowBlank` set is skipped on an empty or
whitespace-only string value regardless of its other configuration — the
blank guard is the first case of the switch — and in particular a field
registered with only such a rule comes out of the local dispatch with the
valid default, not an error entry. -/
theorem claim8_allow_blank_always_skips (v : Validation)
    (env : String → Option JSVal) (name : String) (s : String)
    (resp q : List (String × JSVal))
    (hb : v.allowBlank = true) (hs : blankStr s = true) :
    queueLocalStep name (.str s) resp v = resp ∧
    queueRemoteStep env name (.str s) q v = q ∧
    (QueueFn env { localReg := [(name, [v])] } .rlocal name (.str s)).1.response
      = [(name, .str "")] := by
  have hg : guardSkips v name (.str s) = true := by
    unfold guardSkips
    rw [hb]
    simp [blankTest, jsToString, hs]
  refine ⟨by simp [queueLocalStep, hg], by simp [queueRemoteStep, hg], ?_⟩
  have hstep : queueLocalStep name (.str s) [] v = [] := by
    simp [queueLocalStep, hg]
  simp [QueueFn, GFState.reg, objGet, queueLocalRules, hstep, jsTruthyOpt,
    validDefault, objSet]

/-- Witness for C8: `Validates.Length("password", { minimum: 6, allowBlank:
true })` accepts the empty string — the dispatch skips the rule and the
field gets the valid default, even though the predicate itself would
report "too short" if it were consulted. -/
theorem claim8_witness :
    lengthSixBlankRule.allowBlank = true ∧
    blankStr "" = true ∧
    (queueLocalStep "password" (.str "") [] lengthSixBlankRule = [] ∧
     queueRemoteStep (fun _ => none) "password" (.str "") [] lengthSixBlankRule = [] ∧
     (QueueFn (fun _ => none) { localReg := [("password", [lengthSixBlankRule])] }
        .rlocal "password" (.str "")).1.response = [("password", .str "")]) :=
  ⟨rfl, rfl,
   claim8_allow_blank_always_skips lengthSixBlankRule (fun _ => none) "password" ""
     [] [] rfl rfl⟩

/-- Claim C10: Validate.Local on a field name with no registered local
validations indexes `GoodForm.local[name]` without a guard and cannot
return a boolean (it throws), while Validate.Queue treats the same
unregistered name as a no-op returning `null` with the state untouched. -/
theorem claim10_local_unregistered_unsafe (env : String → Option JSVal)
    (st : GFState) (name : String) (value : JSVal)
    (h : objGet st.localReg name = none) :
    ValidateLocal env st name = .error () ∧
    QueueFn env st .rlocal name value = (st, .jsnull) := by
  constructor
  · unfold ValidateLocal
    rw [h]
  · unfold QueueFn
    have : objGet (st.reg .rlocal) name = none := h
    rw [this]

/-- Witness for C10: an empty page has no local rules for "missing". -/
theorem claim10_witness :
    objGet (GFState.localReg {}) "missing" = none ∧
    (ValidateLocal (fun _ => none) {} "missing" = .error () ∧
     QueueFn (fun _ => none) {} .rlocal "missing" (JSVal.str "") = ({}, .jsnull)) :=
  ⟨rfl,
   claim10_local_unregistered_unsafe (fun _ => none) {} "missing" (JSVal.str "") rfl⟩

/-- After the Run report loop, the `response` local holds the last response
map entry in insertion order (or stays `undefined` over an empty map). -/
theorem runLoop_fst (silent : Bool) :
    ∀ resp : List (String × JSVal),
      (runLoop silent resp).1 =
        (match resp with
         | [] => none
         | _ :: _ => some (lastRespVar resp)) := by
  intro resp
  induction resp with
  | nil => rfl
  | cons p rest ih =>
      obtain ⟨n, r⟩ := p
      cases rest with
      | nil => simp [runLoop, lastRespVar]
      | cons q rest' =>
          have h1 : (runLoop silent ((n, r) :: q :: rest')).1 =
              (match (runLoop silent (q :: rest')).1 with
               | none => some r
               | some x => some x) := rfl
          rw [h1, ih]
          rfl

/-- Claim C1, amended: the boolean returned by Validate.Run is true exactly
when no round trip was issued (the pending batch serialized to an empty
parameter list) and the last-inserted entry of the response map parses as
valid. In particular the return is never true while a round trip is in
flight, and for a response map holding a single field it is that field's
validity; but it is not "every field currently present is valid". -/
theorem claim1_amended_run_returns_last_entry_validity (st : GFState) (silent : Bool) :
    (ValidateRun st silent).ok =
      (!(ValidateRemoteIssued st.queue) &&
        (parseResponse (lastRespVar st.response) == "valid")) := by
  unfold ValidateRun
  by_cases h : ValidateRemoteIssued st.queue
  · simp [h, jsOfVar, parseResponse]
  · simp only [h, Bool.not_false, if_pos, Bool.true_and]
    rw [runLoop_fst]
    cases st.response with
    | nil => simp [jsOfVar, lastRespVar, parseResponse]
    | cons p rest => simp [jsOfVar]

/-- Claim C1, counterexample: a `Validate.All` over two only-local fields,
the first failing its rule and the second passing, returns true even
though field `a` sits in the response map with a non-empty error list —
the flush boolean only reflects the last entry visited, not all fields. -/
theorem claim1_counterexample :
    (ValidateAll abEnv abState).ok = true ∧
    objGet (ValidateAll abEnv abState).state.response "a"
      = some (JSVal.arr ["is always invalid"]) ∧
    (ValidateAll abEnv abState).state.response
      = [("a", JSVal.arr ["is always invalid"]), ("b", JSVal.str "")] := by
  refine ⟨by decide, by decide, by decide⟩

/-- Claim C2: on a completed 2xx round trip the handler only constructs
presentation Effects from the parsed body; nothing writes the server's
results into `GoodForm.Validate.response`. After flushing the batch
`{"email": "a@b.com"}` and delivering the body `{"email": null}`, the
ResponseMap still has no entry for `email` (its lookup parses as still
loading), contradicting the merge the claim — and the source's own comment
on `Validate.response` — describes. -/
theorem claim2_remote_result_never_merged :
    (ValidateName emailEnv emailState "email" {}).2.1 = .ranBool false ∧
    objGet emailAfterFlush.response "email" = none ∧
    emailDelivery.1 = emailAfterFlush ∧
    objGet emailDelivery.1.response "email" = none ∧
    parseResponse (jsOfVar (objGet emailDelivery.1.response "email")) = "loading" ∧
    emailDelivery.2 = [{ name := "email", status := "loading", payload := JSVal.null }] := by
  refine ⟨by decide, by decide, rfl, by decide, by decide, by decide⟩

/-- Claim C3: the result classification. A `null` server result is NOT
classified as valid: `parseResponse` tests `response == undefined`, which
is loosely true for `null`, so `{"email": null}` is classified "loading"
and rendered as the loading state. A non-empty array is classified as an
error carrying exactly its messages, an empty array or a string is valid. -/
theorem claim3_null_result_classified_loading :
    parseResponse JSVal.null = "loading" ∧
    onReadyStateChange [] { readyState := 4, status := 200, body := [("email", JSVal.null)] }
      = [{ name := "email", status := "loading", payload := JSVal.null }] ∧
    onReadyStateChange []
        { readyState := 4, status := 200, body := [("email", JSVal.arr ["is invalid"])] }
      = [{ name := "email", status := "error", payload := JSVal.arr ["is invalid"] }] ∧
    parseResponse (JSVal.arr []) = "valid" ∧
    parseResponse (JSVal.str "OK") = "valid" := by
  refine ⟨rfl, by decide, by decide, rfl, rfl⟩

/-- Claim C4, counterexample: field `f` has both a remote and a local rule
and its value, the empty string, IS enqueued by the remote dispatch (the
queue entry exists afterwards); yet the same non-local `Validate("f")` call
also evaluates the local rule, because the dispatcher's return — the
enqueued value — is falsy. The local rule's error lands in the response
map. -/
theorem claim4_counterexample :
    bothKindsState.remoteReg.map (fun p => p.1) = ["f"] ∧
    bothKindsState.localReg.map (fun p => p.1) = ["f"] ∧
    objGet (QueueFn emptyFEnv bothKindsState .rremote "f" (JSVal.str "")).1.queue "f"
      = some (JSVal.str "") ∧
    (QueueFn emptyFEnv bothKindsState .rremote "f" (JSVal.str "")).2
      = .qval (some (JSVal.str "")) ∧
    objGet (ValidateName emptyFEnv bothKindsState "f" {}).1.response "f"
      = some (JSVal.arr ["is always invalid"]) := by
  refine ⟨by decide, by decide, by decide, by decide, by decide⟩

/-- Claim C4, amended: within one non-local validateField call the local
dispatch is skipped exactly when the remote dispatch's return — the queue
entry for the field after remote processing — is truthy. When it is, the
whole call (deferred here, so that the dispatch phase is isolated) performs
nothing beyond the remote dispatch, so local rules are not evaluated; an
enqueued falsy value such as the empty string instead lets the local
dispatch run as well. -/
theorem claim4_amended_truthy_remote_skips_local (env : String → Option JSVal)
    (st : GFState) (name : String) (value : JSVal) (opts : NameOpts)
    (hdefer : opts.defer = true) (hlocal : opts.localOpt = false)
    (henv : env name = some value) (hval : looseEqUndefined value = false)
    (htruthy : qretTruthy (QueueFn env st .rremote name value).2 = true) :
    (ValidateName env st name opts).1 = (QueueFn env st .rremote name value).1 := by
  unfold ValidateName
  rw [henv]
  simp only [hdefer, hlocal, hval, htruthy, Bool.not_true, Bool.not_false,
    Bool.false_eq_true, if_false, if_true, ite_false, ite_true]
  split <;> rfl

/-- Witness for the amended C4: a truthy value "v" on field `g` is
enqueued remotely and the call adds nothing else — the always-failing local
rule on `g` is never consulted. -/
theorem claim4_amended_witness :
    truthyGEnv "g" = some (JSVal.str "v") ∧
    qretTruthy (QueueFn truthyGEnv bothKindsGState .rremote "g" (JSVal.str "v")).2 = true ∧
    (ValidateName truthyGEnv bothKindsGState "g" { defer := true }).1
      = (QueueFn truthyGEnv bothKindsGState .rremote "g" (JSVal.str "v")).1 :=
  ⟨rfl, by decide,
   claim4_amended_truthy_remote_skips_local truthyGEnv bothKindsGState "g"
     (JSVal.str "v") { defer := true } rfl rfl rfl rfl (by decide)⟩

/-- Claim C6, counterexample: `Validates.Format("email")` with no pattern
constructs successfully — the rule exists, with the defaulted message and
no pattern — and the failure surfaces only later, as a TypeError when the
predicate is evaluated. Construction does not raise. -/
theorem claim6_counterexample :
    (ValidatesFormat {}).withTest = none ∧
    (ValidatesFormat {}).message = some "is invalid" ∧
    formatValidate (ValidatesFormat {}) (JSVal.str "a@b.com") = .error .typeError :=
  ⟨rfl, rfl, rfl⟩

/-- Claim C6, amended: constructing a Format rule with no pattern succeeds
(the constructor performs no check); the missing option then causes a
thrown TypeError — never a silent pass — the first time the rule's
predicate is evaluated, on every value. -/
theorem claim6_amended_missing_pattern_raises_at_evaluation (cfg : FormatConfig)
    (value : JSVal) (h : cfg.withTest = none) :
    formatValidate (ValidatesFormat cfg) value = .error .typeError := by
  unfold formatValidate ValidatesFormat
  simp [h]

/-- Witness for the amended C6. -/
theorem claim6_amended_witness :
    ({} : FormatConfig).withTest = none ∧
    formatValidate (ValidatesFormat {}) (JSVal.str "x") = .error .typeError :=
  ⟨rfl, claim6_amended_missing_pattern_raises_at_evaluation {} (JSVal.str "x") rfl⟩

end GoodForm
